import Mathlib

/-!
Verification development for the payday-mcp ETL scripts.

The Python scripts under scripts/ are shallowly embedded below:
JSON values become the inductive `JVal`, Python truthiness / iteration /
`dict.get` / `dict[...]=` become `truthy`, `pyIter`, `pyGet`, `pySetItem`
(with `Option` modelling a raised exception), and each script's driving
function becomes a Lean function over an abstract oracle for its external
effects (HTTP / MCP page fetches, subprocess exit codes, DuckDB queries).
-/

namespace Payday

/-- A JSON value, as produced by Python's json.loads: null, booleans,
numbers (the scripts only ever compare them to 0, so Int suffices),
strings, arrays and objects (Python dicts, key order preserved). -/
inductive JVal where
  | null : JVal
  | bool : Bool → JVal
  | num : Int → JVal
  | str : String → JVal
  | arr : List JVal → JVal
  | obj : List (String × JVal) → JVal

/-- Python truthiness of a JSON value: None, False, 0, empty string,
empty list and empty dict are falsy. -/
def truthy : JVal → Bool
  | JVal.null => false
  | JVal.bool b => b
  | JVal.num n => n != 0
  | JVal.str s => s != ""
  | JVal.arr xs => !xs.isEmpty
  | JVal.obj kvs => !kvs.isEmpty

/-- Python iteration (as used by list.extend): a list yields its elements,
a string yields its characters as 1-character strings, a dict yields its
keys; any other value raises TypeError, modelled as `none`. -/
def pyIter : JVal → Option (List JVal)
  | JVal.arr xs => some xs
  | JVal.str s => some (s.data.map (fun c => JVal.str (String.mk [c])))
  | JVal.obj kvs => some (kvs.map (fun kv => JVal.str kv.1))
  | _ => none

/-- Python len() of a JSON value: defined for lists, strings and dicts,
raises TypeError (modelled as `none`) otherwise. -/
def pyLen : JVal → Option Nat
  | JVal.arr xs => some xs.length
  | JVal.str s => some s.length
  | JVal.obj kvs => some kvs.length
  | _ => none

/-- Python d.get(k, default): returns the value stored under k, or the
default; raises AttributeError (modelled as `none`) when the receiver is
not a dict. -/
def pyGet (v : JVal) (k : String) (d : JVal) : Option JVal :=
  match v with
  | JVal.obj kvs => some ((kvs.lookup k).getD d)
  | _ => none

/-- Python d[k] = x on an association list: replaces the first binding of
k in place, or appends a new binding at the end (dict insertion order). -/
def setKey : List (String × JVal) → String → JVal → List (String × JVal)
  | [], k, x => [(k, x)]
  | (k1, v1) :: rest, k, x =>
      if k1 = k then (k, x) :: rest else (k1, v1) :: setKey rest k x

/-- Python item[k] = x: assignment on a dict; raises TypeError on any
other value, modelled as `none`. -/
def pySetItem (v : JVal) (k : String) (x : JVal) : Option JVal :=
  match v with
  | JVal.obj kvs => some (JVal.obj (setKey kvs k x))
  | _ => none

/-!
## Pagination: fetch_all_pages (scripts/bronze_fetch_full.py,
scripts/bronze_fetch_test.py)

Both files contain the same loop: page starts at 1, perpage is 500,
max_pages is 1000; a failed first page returns the error result
unchanged, a failed later page breaks out with the data collected so
far; an empty page or a page shorter than perpage ends the pagination.
The only difference between the two files is how the page items are
extracted from the "data" field of the tool result, so the loop is
parametrised by that extraction function.
-/

/-- Item extraction of bronze_fetch_full.py (lines 67-80): a dict with a
"customers" / "invoices" / "expenses" key yields that entry, any other
dict is treated as a single-item response, a list is used as is, and any
other value becomes the empty list. -/
def extractItemsFull (data : JVal) : JVal :=
  match data with
  | JVal.obj kvs =>
      match kvs.lookup "customers" with
      | some v => v
      | none =>
          match kvs.lookup "invoices" with
          | some v => v
          | none =>
              match kvs.lookup "expenses" with
              | some v => v
              | none => JVal.arr [JVal.obj kvs]
  | JVal.arr xs => JVal.arr xs
  | _ => JVal.arr []

/-- Item extraction of bronze_fetch_test.py (lines 65-70): the "data"
field is used directly as the page's items. -/
def extractItemsTest (data : JVal) : JVal := data

/-- The success dict built at the end of fetch_all_pages:
{"ok": True, "data": all_data, "total_pages": page - 1,
 "total_items": len(all_data)}. -/
def successObj (allData : List JVal) (totalPages : Nat) : JVal :=
  JVal.obj [("ok", JVal.bool true), ("data", JVal.arr allData),
            ("total_pages", JVal.num (Int.ofNat totalPages)),
            ("total_items", JVal.num (Int.ofNat allData.length))]

/-- The body of fetch_all_pages, as a function of the current page, the
remaining loop iterations (1001 - page at the real call site, since the
loop condition is page <= max_pages with max_pages = 1000) and the
accumulated items.  The oracle `pages` gives the JSON value returned by
call_mcp_tool for each page number.  Returns the function's result
(`none` when the Python code would raise) together with the number of
page fetches performed. -/
def fetchAllPagesAux (extract : JVal → JVal) (pages : Nat → JVal) :
    Nat → Nat → List JVal → Option JVal × Nat
  | page, 0, acc => (some (successObj acc (page - 1)), 0)
  | page, fuel + 1, acc =>
      match pyGet (pages page) "ok" JVal.null with
      | none => (none, 1)
      | some okv =>
          if truthy okv = false then
            if page = 1 then (some (pages page), 1)
            else (some (successObj acc (page - 1)), 1)
          else
            match pyGet (pages page) "data" (JVal.arr []) with
            | none => (none, 1)
            | some d =>
                if truthy (extract d) = false then
                  (some (successObj acc (page - 1)), 1)
                else
                  match pyIter (extract d) with
                  | none => (none, 1)
                  | some xs =>
                      match pyLen (extract d) with
                      | none => (none, 1)
                      | some l =>
                          if l < 500 then
                            (some (successObj (acc ++ xs) (page - 1)), 1)
                          else
                            match fetchAllPagesAux extract pages (page + 1) fuel (acc ++ xs) with
                            | (r, n) => (r, n + 1)

/-- fetch_all_pages with a given extraction function: page starts at 1
and at most max_pages = 1000 iterations run. -/
def fetchAllPagesWith (extract : JVal → JVal) (pages : Nat → JVal) :
    Option JVal × Nat :=
  fetchAllPagesAux extract pages 1 1000 []

/-- fetch_all_pages of scripts/bronze_fetch_full.py. -/
def fetchAllPagesFull (pages : Nat → JVal) : Option JVal × Nat :=
  fetchAllPagesWith extractItemsFull pages

/-- fetch_all_pages of scripts/bronze_fetch_test.py. -/
def fetchAllPagesTest (pages : Nat → JVal) : Option JVal × Nat :=
  fetchAllPagesWith extractItemsTest pages

/-- The truthiness of the "ok" field of the tool result for page k
(`none` when result.get would raise because the result is not a dict). -/
def pageOkState (pages : Nat → JVal) (k : Nat) : Option Bool :=
  (pyGet (pages k) "ok" JVal.null).map truthy

/-- The items list the loop would extract from page k's result (`none`
when the extraction would raise). -/
def mcpPageItems (extract : JVal → JVal) (pages : Nat → JVal) (k : Nat) :
    Option (List JVal) :=
  match pyGet (pages k) "data" (JVal.arr []) with
  | none => none
  | some d => pyIter (extract d)

/-- The consecutive page numbers a, a+1, ..., a+n-1. -/
def pageRange (a : Nat) : Nat → List Nat
  | 0 => []
  | n + 1 => a :: pageRange (a + 1) n

/-!
## Pagination: paged_get (scripts/bronze_fetch.py, lines 33-49)

The HTTP fetcher's generator: page starts at 1 with pageSize 500, the
items are the response body itself when it is a list and otherwise
body.get("items") or body.get("data") or []; the loop has no upper page
bound, so the embedding carries an explicit fuel and reports when the
real loop would still be running after that many pages.
-/

/-- Item extraction of paged_get: `items = data if isinstance(data, list)
else data.get("items") or data.get("data") or []`; .get on a non-dict
raises (modelled as `none`). -/
def httpItems (data : JVal) : Option JVal :=
  match data with
  | JVal.arr xs => some (JVal.arr xs)
  | JVal.obj kvs =>
      let a := (kvs.lookup "items").getD JVal.null
      if truthy a then some a
      else
        let b := (kvs.lookup "data").getD JVal.null
        if truthy b then some b else some (JVal.arr [])
  | _ => none

/-- Outcome of running the paged_get generator to completion: `done`
when the loop hit its stop condition having yielded the given items,
`spin` when the fuel ran out while the real loop would keep going, and
`exc` when the Python code would raise after yielding the given items
(an HTTP error from the oracle, or item extraction on an unusable
body). -/
inductive GenOut where
  | done : List JVal → GenOut
  | spin : List JVal → GenOut
  | exc : List JVal → GenOut

/-- The paged_get loop over an oracle giving each page's parsed JSON
body (`none` when the HTTP request or raise_for_status fails). -/
def pagedGetAux (pages : Nat → Option JVal) :
    Nat → Nat → List JVal → GenOut
  | _, 0, acc => GenOut.spin acc
  | page, fuel + 1, acc =>
      match pages page with
      | none => GenOut.exc acc
      | some body =>
          match httpItems body with
          | none => GenOut.exc acc
          | some items =>
              if truthy items = false then GenOut.done acc
              else
                match pyIter items with
                | none => GenOut.exc acc
                | some xs =>
                    match pyLen items with
                    | none => GenOut.exc acc
                    | some l =>
                        if l < 500 then GenOut.done (acc ++ xs)
                        else pagedGetAux pages (page + 1) fuel (acc ++ xs)

/-- paged_get started at page 1 with the given fuel. -/
def pagedGet (pages : Nat → Option JVal) (fuel : Nat) : GenOut :=
  pagedGetAux pages 1 fuel []

/-- The items paged_get would extract from page k (`none` when the page
fetch or the extraction would raise). -/
def httpPageItems (pages : Nat → Option JVal) (k : Nat) : Option (List JVal) :=
  match pages k with
  | none => none
  | some body =>
      match httpItems body with
      | none => none
      | some items => pyIter items

/-!
## Bronze snapshot file writes

`BronzeFile` records one file created under data/bronze/: its directory
path (as segments), its file name and the records written to it, one
JSON object per line.
-/

/-- One file written under data/bronze/. -/
structure BronzeFile where
  dir : List String
  name : String
  lines : List JVal

/-- data/bronze/payday/<resource>, the directory both fetchers create. -/
def bronzeResourceDir (resource : String) : List String :=
  ["data", "bronze", "payday", resource]

/-- The JSONL write loop of the MCP fetchers (bronze_fetch_full.py lines
194-203, bronze_fetch_test.py lines 113-122): each item gets the
ingestion metadata _ingested_at_utc (an abstract per-item clock),
_source_ = "payday-mcp" and _resource_ = the resource name, is written
as one line, and count is incremented.  Returns the written lines and
the final count; `none` models the TypeError raised when an item is not
a dict. -/
def mcpWriteLoop (resource : String) (clock : Nat → String) :
    List JVal → Nat → Nat → Option (List JVal × Nat)
  | [], _, count => some ([], count)
  | item :: rest, i, count =>
      match pySetItem item "_ingested_at_utc" (JVal.str (clock i)) with
      | none => none
      | some i1 =>
          match pySetItem i1 "_source_" (JVal.str "payday-mcp") with
          | none => none
          | some i2 =>
              match pySetItem i2 "_resource_" (JVal.str resource) with
              | none => none
              | some i3 =>
                  match mcpWriteLoop resource clock rest (i + 1) (count + 1) with
                  | none => none
                  | some (tail, c) => some (i3 :: tail, c)

/-- The JSONL write loop of the HTTP fetcher (bronze_fetch.py lines
71-77): each item gets _ingested_at_utc and _source_ = "payday" (no
_resource_ field), and count is incremented per line. -/
def httpWriteLoop (clock : Nat → String) :
    List JVal → Nat → Nat → Option (List JVal × Nat)
  | [], _, count => some ([], count)
  | item :: rest, i, count =>
      match pySetItem item "_ingested_at_utc" (JVal.str (clock i)) with
      | none => none
      | some i1 =>
          match pySetItem i1 "_source_" (JVal.str "payday") with
          | none => none
          | some i2 =>
              match httpWriteLoop clock rest (i + 1) (count + 1) with
              | none => none
              | some (tail, c) => some (i2 :: tail, c)

/-- The resources the MCP fetcher bronze_fetch_full.py knows
(resource_config, lines 116-158). -/
def mcpResources : List String :=
  ["accounts", "account-statement", "company", "customers", "invoices",
   "expenses", "expense-accounts", "expense-payment-types", "payments"]

/-- The resources the HTTP fetcher bronze_fetch.py knows (routes, lines
54-59). -/
def httpRoutes : List String :=
  ["accounts", "customers", "invoices", "transactions"]

/-- The files bronze_fetch_full.py's fetch_resource writes once its
fetch succeeded with the given data (lines 185-205): nothing on an
unknown resource or empty data, otherwise exactly one JSONL snapshot
under data/bronze/payday/<resource>/; no Parquet file is produced by
this script. -/
def mcpFetchWrites (resource ts : String) (clock : Nat → String)
    (data : List JVal) : Option (List BronzeFile) :=
  if resource ∈ mcpResources then
    if data.isEmpty then some []
    else
      match mcpWriteLoop resource clock data 0 0 with
      | none => none
      | some (lines, _) =>
          some [⟨bronzeResourceDir resource, "snapshot_" ++ ts ++ ".jsonl", lines⟩]
  else some []

/-- The files bronze_fetch.py's fetch_resource writes given the items
its pager yielded (lines 60-94): on a known resource the JSONL snapshot
is always created (the file is opened before iterating, so it exists
even with zero records), and when at least one record was written a
Parquet snapshot is additionally produced from the JSONL by DuckDB's
read_json_auto / COPY (the schema inference itself is external; the
Parquet carries the same records). -/
def httpFetchWrites (resource ts : String) (clock : Nat → String)
    (items : List JVal) : Option (List BronzeFile) :=
  if resource ∈ httpRoutes then
    match httpWriteLoop clock items 0 0 with
    | none => none
    | some (lines, count) =>
        if count = 0 then
          some [⟨bronzeResourceDir resource, "snapshot_" ++ ts ++ ".jsonl", lines⟩]
        else
          some [⟨bronzeResourceDir resource, "snapshot_" ++ ts ++ ".jsonl", lines⟩,
                ⟨bronzeResourceDir resource, "snapshot_" ++ ts ++ ".parquet", lines⟩]
  else some []

/-- The latest JSONL file of a resource directory as picked by
scripts/convert_to_parquet.py (line 23): the maximal file name. -/
def latestJsonl (names : List String) : Option String :=
  names.foldl (fun best n =>
    match best with
    | none => some n
    | some b => if b < n then some n else some b) none

/-- The conversion target of convert_to_parquet.py for one resource
directory: the latest JSONL together with the produced Parquet name
<resource>_latest.parquet (line 24); nothing when the directory holds no
JSONL file. -/
def convertTarget (resource : String) (names : List String) :
    Option (String × String) :=
  match latestJsonl names with
  | none => none
  | some j => some (j, resource ++ "_latest.parquet")

/-!
## The fetch driver main loops (C6)

bronze_fetch_full.py main (lines 223-232): each resource is fetched
inside try/except; a caught exception appends an error record and the
loop continues.  bronze_fetch.py main (lines 100-106): same shape, but a
caught exception appends nothing and a successful fetch appends the
result as is (even None).  The behaviour oracle maps a resource to
either a raised exception message or the fetch result.  Both embeddings
also return the list of resources attempted, in order, one entry per
fetch call.
-/

/-- The error record bronze_fetch_full.py appends when fetching a
resource raised: {"resource": r, "count": 0, "error": str(e)}. -/
def mcpErrObj (r e : String) : JVal :=
  JVal.obj [("resource", JVal.str r), ("count", JVal.num 0),
            ("error", JVal.str e)]

/-- The resource loop of bronze_fetch_full.py main. -/
def mcpMainLoop (beh : String → Except String (Option JVal)) :
    List String → List JVal × List String
  | [] => ([], [])
  | r :: rest =>
      match mcpMainLoop beh rest with
      | (tail, log) =>
          match beh r with
          | Except.ok (some v) => (v :: tail, r :: log)
          | Except.ok none => (tail, r :: log)
          | Except.error e => (mcpErrObj r e :: tail, r :: log)

/-- The resource loop of bronze_fetch.py main. -/
def httpMainLoop (beh : String → Except String (Option JVal)) :
    List String → List (Option JVal) × List String
  | [] => ([], [])
  | r :: rest =>
      match httpMainLoop beh rest with
      | (tail, log) =>
          match beh r with
          | Except.ok v => (v :: tail, r :: log)
          | Except.error _ => (tail, r :: log)

/-- The result bronze_fetch_full.py main appends for one resource. -/
def mcpResultView (beh : String → Except String (Option JVal)) (r : String) :
    Option JVal :=
  match beh r with
  | Except.ok (some v) => some v
  | Except.ok none => none
  | Except.error e => some (mcpErrObj r e)

/-- The result bronze_fetch.py main appends for one resource. -/
def httpResultView (beh : String → Except String (Option JVal)) (r : String) :
    Option (Option JVal) :=
  match beh r with
  | Except.ok v => some v
  | Except.error _ => none

/-!
## The orchestrator scripts/build_pipeline.py (C4, C7)
-/

/-- The steps list of build_pipeline.py main (lines 46-49). -/
def pipelineSteps : List (String × String × String) :=
  [("Silver", "python scripts/silver_build.ps1",
    "Building typed Silver tables from Bronze JSONL"),
   ("Gold", "python scripts/gold_build.ps1",
    "Building business views and KPIs from Silver")]

/-- The sequential step loop of build_pipeline.py main (lines 51-58):
run each step's command, stop at the first nonzero returncode.  The
oracle maps a command to its subprocess returncode.  Returns the names
of the steps started, in order, and whether all of them succeeded. -/
def runStepsAux (exec : String → Int) :
    List (String × String × String) → List String × Bool
  | [] => ([], true)
  | (name, cmd, _) :: rest =>
      if exec cmd == 0 then
        match runStepsAux exec rest with
        | (ran, ok) => (name :: ran, ok)
      else ([name], false)

/-- build_pipeline.py main's step phase. -/
def buildPipelineRun (exec : String → Int) : List String × Bool :=
  runStepsAux exec pipelineSteps

/-- The process exit status of build_pipeline.py (lines 70-72):
sys.exit(0 if success else 1). -/
def buildPipelineExit (exec : String → Int) : Nat :=
  if (buildPipelineRun exec).2 then 0 else 1

/-- Whether a string ends with the given suffix. -/
def strEndsWith (s suffix : String) : Bool :=
  suffix.data.isSuffixOf s.data

/-- pathlib's Path("data/bronze/payday").glob("*.jsonl") over the files
below that directory, given as relative segment paths: a single-level
glob, matching only direct children whose name ends in ".jsonl"
(build_pipeline.py line 38). -/
def globJsonl (files : List (List String)) : List (List String) :=
  files.filter (fun p =>
    match p with
    | [name] => strEndsWith name ".jsonl"
    | _ => false)

/-- The path, relative to data/bronze/payday/, of a snapshot written by
the fetch scripts: <resource>/snapshot_<TS>.jsonl. -/
def bronzeSnapshotRelPath (resource ts : String) : List String :=
  [resource, "snapshot_" ++ ts ++ ".jsonl"]

/-- A BronzeFile's path relative to data/bronze/payday/ (its directory
is data/bronze/payday/<resource>). -/
def relUnderPayday (f : BronzeFile) : List String :=
  f.dir.drop 3 ++ [f.name]

/-!
## The CLI export utility scripts/export_json.py (C5)
-/

/-- The parsed arguments of export_json.py (lines 18-25), with their
argparse defaults: where = "", limit = 2000, out = "-", order = "". -/
structure ExportArgs where
  view : String
  whereClause : String
  limit : Int
  outPath : String
  order : String

/-- The default arguments for a given --view. -/
def defaultExportArgs (view : String) : ExportArgs :=
  ⟨view, "", 2000, "-", ""⟩

/-- The SQL string built by export_json.py main (lines 32-43), appending
in order: the optional WHERE clause (when --where is a nonempty string),
the ORDER BY clause (--order when nonempty, else "ORDER BY 1 DESC"), and
the LIMIT. -/
def buildSql (a : ExportArgs) : String :=
  let sql := "SELECT * FROM " ++ a.view
  let sql := if a.whereClause ≠ "" then sql ++ " WHERE " ++ a.whereClause else sql
  let sql := if a.order ≠ "" then sql ++ " ORDER BY " ++ a.order
             else sql ++ " ORDER BY 1 DESC"
  sql ++ " LIMIT " ++ toString a.limit

/-- What the DuckDB connection does with the built SQL: either the
result's column names and rows, or a raised exception message. -/
inductive DbResult where
  | ok : List String → List (List JVal) → DbResult
  | err : String → DbResult

/-- The observable outcome of export_json.py main: the process exit
status, the destination ("-" for stdout, else the --out path) together
with the exported array of objects, and the error message printed to
stderr on failure. -/
structure ExportOutcome where
  exitCode : Nat
  written : Option (String × List (List (String × JVal)))
  errorMsg : Option String

/-- export_json.py main (lines 27-72): build the SQL, run it, turn the
rows into dicts by zipping each row with the column names (rows = []
gives data = [] after the no-data warning), serialise and write to
stdout or the --out file; any exception prints an error to stderr and
exits with status 1. -/
def exportMain (a : ExportArgs) (db : String → DbResult) : ExportOutcome :=
  match db (buildSql a) with
  | DbResult.err e => ⟨1, none, some ("[ERROR] Export failed: " ++ e)⟩
  | DbResult.ok cols rows =>
      let data := if rows.isEmpty then []
                  else rows.map (fun row => cols.zip row)
      ⟨0, some (a.outPath, data), none⟩

/-!
## The Silver build (C1)

Modelled from the spec: the SQL script scripts/sql/01_silver_build.sql
that builds the Silver layer is not under src/ (only its driver
scripts/silver_test.py, which executes it and then reads the tables
silver.accounts, silver.transactions, silver.qc_orphan_txn_accounts,
silver.qc_missing_fields, is).  Following the spec's words, the Silver
build loads the raw records into typed, deduplicated tables and applies
the quality gates: orphan detection (transactions referencing no known
account) and missing-critical-field detection.
-/

/-- Modelled from the spec: a typed Silver account row. -/
structure RawAccount where
  code : String
  name : String

/-- Modelled from the spec: a typed Silver transaction row; the critical
fields (account code, date, amount) may be missing in the raw data. -/
structure RawTxn where
  txnId : String
  accountCode : Option String
  txnDate : Option String
  amount : Option Int

/-- Keep the first occurrence of each key, dropping later duplicates. -/
def dedupByAux {α : Type} (key : α → String) (seen : List String) :
    List α → List α
  | [] => []
  | x :: rest =>
      if key x ∈ seen then dedupByAux key seen rest
      else x :: dedupByAux key (key x :: seen) rest

/-- Deduplication by key. -/
def dedupBy {α : Type} (key : α → String) (l : List α) : List α :=
  dedupByAux key [] l

/-- Modelled from the spec: a transaction is an orphan when its account
code references no known account. -/
def isOrphan (accounts : List RawAccount) (t : RawTxn) : Bool :=
  match t.accountCode with
  | some c => accounts.all (fun a => a.code != c)
  | none => false

/-- Modelled from the spec: a transaction misses a critical field when
its account code, date or amount is absent. -/
def missingCritical (t : RawTxn) : Bool :=
  t.accountCode.isNone || t.txnDate.isNone || t.amount.isNone

/-- The Silver tables silver_test.py reads after the build. -/
structure SilverDb where
  accounts : List RawAccount
  transactions : List RawTxn
  qc_orphan_txn_accounts : List RawTxn
  qc_missing_fields : List RawTxn

/-- Modelled from the spec: the Silver build deduplicates the raw
records into typed tables and fills the two quality-gate tables with the
offending transactions. -/
def buildSilver (rawAccounts : List RawAccount) (rawTxns : List RawTxn) :
    SilverDb :=
  let accounts := dedupBy RawAccount.code rawAccounts
  let txns := dedupBy RawTxn.txnId rawTxns
  { accounts := accounts
    transactions := txns
    qc_orphan_txn_accounts := txns.filter (isOrphan accounts)
    qc_missing_fields := txns.filter missingCritical }

/-!
## Helper lemmas
-/

/-- Concatenation of the items of the listed pages, in order. -/
def pagesConcat (f : Nat → List JVal) : List Nat → List JVal
  | [] => []
  | k :: ks => f k ++ pagesConcat f ks

theorem pyIter_truthy {v : JVal} {xs : List JVal} (h : pyIter v = some xs) :
    truthy v = true ↔ xs ≠ [] := by
  cases v with
  | null => simp [pyIter] at h
  | bool b => simp [pyIter] at h
  | num n => simp [pyIter] at h
  | str s =>
      simp only [pyIter, Option.some.injEq] at h
      subst h
      simp only [truthy, bne_iff_ne, ne_eq, List.map_eq_nil_iff]
      rw [String.ext_iff]
  | arr ys =>
      simp only [pyIter, Option.some.injEq] at h
      subst h
      cases ys <;> simp [truthy]
  | obj kvs =>
      simp only [pyIter, Option.some.injEq] at h
      subst h
      cases kvs <;> simp [truthy]

theorem pyIter_pyLen {v : JVal} {xs : List JVal} (h : pyIter v = some xs) :
    pyLen v = some xs.length := by
  cases v with
  | null => simp [pyIter] at h
  | bool b => simp [pyIter] at h
  | num n => simp [pyIter] at h
  | str s =>
      simp only [pyIter, Option.some.injEq] at h
      subst h
      simp only [pyLen, List.length_map, Option.some.injEq]
      rfl
  | arr ys =>
      simp only [pyIter, Option.some.injEq] at h
      subst h
      simp [pyLen]
  | obj kvs =>
      simp only [pyIter, Option.some.injEq] at h
      subst h
      simp [pyLen]

theorem lookup_setKey_self (kvs : List (String × JVal)) (k : String) (v : JVal) :
    (setKey kvs k v).lookup k = some v := by
  induction kvs with
  | nil => simp [setKey, List.lookup]
  | cons kv rest ih =>
      obtain ⟨k1, v1⟩ := kv
      by_cases h : k1 = k
      · simp [setKey, h, List.lookup]
      · simp only [setKey, if_neg h, List.lookup]
        have : (k == k1) = false := by
          simp [beq_iff_eq]
          exact fun he => h he.symm
        simp [this, ih]

theorem lookup_setKey_ne (kvs : List (String × JVal)) (k k' : String) (v : JVal)
    (h : k' ≠ k) : (setKey kvs k v).lookup k' = kvs.lookup k' := by
  induction kvs with
  | nil =>
      simp only [setKey, List.lookup]
      have : (k' == k) = false := by simp [beq_iff_eq, h]
      simp [this]
  | cons kv rest ih =>
      obtain ⟨k1, v1⟩ := kv
      by_cases h1 : k1 = k
      · subst h1
        have : (k' == k1) = false := by simp [beq_iff_eq, h]
        simp [setKey, List.lookup, this]
      · simp only [setKey, if_neg h1, List.lookup]
        cases hbe : (k' == k1) <;> simp [ih]

theorem dedupByAux_not_seen {α : Type} (key : α → String) :
    ∀ (l : List α) (seen : List String) (x : α),
      x ∈ dedupByAux key seen l → key x ∉ seen := by
  intro l
  induction l with
  | nil => intro seen x hx; simp [dedupByAux] at hx
  | cons y rest ih =>
      intro seen x hx
      by_cases h : key y ∈ seen
      · rw [dedupByAux, if_pos h] at hx
        exact ih seen x hx
      · rw [dedupByAux, if_neg h] at hx
        rcases List.mem_cons.mp hx with hx | hx
        · subst hx; exact h
        · have := ih (key y :: seen) x hx
          intro hc
          exact this (List.mem_cons_of_mem _ hc)

theorem fetchAllPagesAux_count (extract : JVal → JVal) (pages : Nat → JVal) :
    ∀ (fuel page : Nat) (acc : List JVal),
      (fetchAllPagesAux extract pages page fuel acc).2 ≤ fuel := by
  intro fuel
  induction fuel with
  | zero => intro page acc; simp [fetchAllPagesAux]
  | succ fuel ih =>
      intro page acc
      rw [fetchAllPagesAux]
      rcases hok : pyGet (pages page) "ok" JVal.null with _ | okv
      · simp
      · by_cases htr : truthy okv = false
        · simp only [if_pos htr]
          split <;> simp
        · simp only [if_neg htr]
          rcases hd : pyGet (pages page) "data" (JVal.arr []) with _ | d
          · simp
          · by_cases hti : truthy (extract d) = false
            · simp [hti]
            · simp only [if_neg hti]
              rcases hi : pyIter (extract d) with _ | xs
              · simp
              · rcases hl : pyLen (extract d) with _ | l
                · simp
                · by_cases hlt : l < 500
                  · simp [hlt]
                  · simp only [if_neg hlt]
                    rcases hrec : fetchAllPagesAux extract pages (page + 1) fuel (acc ++ xs)
                      with ⟨r, n⟩
                    have hle := ih (page + 1) (acc ++ xs)
                    rw [hrec] at hle
                    simpa using Nat.succ_le_succ hle

theorem dedupByAux_nodup {α : Type} (key : α → String) :
    ∀ (l : List α) (seen : List String),
      ((dedupByAux key seen l).map key).Nodup := by
  intro l
  induction l with
  | nil => intro seen; simp [dedupByAux]
  | cons y rest ih =>
      intro seen
      by_cases h : key y ∈ seen
      · rw [dedupByAux, if_pos h]; exact ih seen
      · rw [dedupByAux, if_neg h]
        simp only [List.map_cons, List.nodup_cons]
        refine ⟨?_, ih (key y :: seen)⟩
        intro hc
        rcases List.mem_map.mp hc with ⟨z, hz, hkz⟩
        have := dedupByAux_not_seen key rest (key y :: seen) z hz
        exact this (by simp [hkz])

/-- Running the MCP pagination loop when pages page..n-1 succeed with
exactly 500 items, page n succeeds with an empty or short items list,
and the fuel does not run out first: the loop fetches exactly the pages
up to n and returns their items in order. -/
theorem fetchAllPagesAux_run (extract : JVal → JVal) (pages : Nat → JVal)
    (f : Nat → List JVal) (n : Nat)
    (hok : ∀ k, 1 ≤ k → k ≤ n → pageOkState pages k = some true)
    (hitems : ∀ k, 1 ≤ k → k ≤ n → mcpPageItems extract pages k = some (f k))
    (hfull : ∀ k, 1 ≤ k → k < n → (f k).length = 500)
    (hlast : (f n).length < 500) :
    ∀ (fuel page : Nat) (acc : List JVal), 1 ≤ page → page ≤ n → n - page < fuel →
      fetchAllPagesAux extract pages page fuel acc =
        (some (successObj (acc ++ pagesConcat f (pageRange page (n - page + 1))) (n - 1)),
         n - page + 1) := by
  intro fuel
  induction fuel with
  | zero => intro page acc h1 h2 h3; omega
  | succ fuel ih =>
      intro page acc h1 h2 h3
      rcases Option.map_eq_some'.mp (hok page h1 h2) with ⟨okv, hgok, htok⟩
      have hitp := hitems page h1 h2
      rcases hd : pyGet (pages page) "data" (JVal.arr []) with _ | d
      · simp [mcpPageItems, hd] at hitp
      · simp only [mcpPageItems, hd] at hitp
        rw [fetchAllPagesAux]
        rcases eq_or_lt_of_le h2 with heq | hlt
        · subst heq
          by_cases hfe : f page = []
          · have htr : truthy (extract d) = false := by
              rcases Bool.eq_false_or_eq_true (truthy (extract d)) with hh | hh
              · exact absurd ((pyIter_truthy hitp).mp hh) (by simp [hfe])
              · exact hh
            simp only [hgok, htok, hd, htr]
            have hr : page - page + 1 = 1 := by omega
            rw [hr]
            simp [pageRange, pagesConcat, hfe]
          · have htr : truthy (extract d) = true :=
              (pyIter_truthy hitp).mpr hfe
            have hlen := pyIter_pyLen hitp
            simp only [hgok, htok, hd, htr, hitp, hlen]
            have hr : page - page + 1 = 1 := by omega
            rw [hr]
            simp [pageRange, pagesConcat, hlast]
        · have hf500 := hfull page h1 hlt
          have hfe : f page ≠ [] := by
            intro hc; rw [hc] at hf500; simp at hf500
          have htr : truthy (extract d) = true := (pyIter_truthy hitp).mpr hfe
          have hlen := pyIter_pyLen hitp
          simp only [hgok, htok, hd, htr, hitp, hlen, hf500]
          have hrec := ih (page + 1) (acc ++ f page) (by omega) (by omega) (by omega)
          rw [hrec]
          have hcount : n - (page + 1) + 1 + 1 = n - page + 1 := by omega
          have hrange : pageRange page (n - page + 1)
              = page :: pageRange (page + 1) (n - (page + 1) + 1) := by
            have hnp : n - page + 1 = (n - (page + 1) + 1) + 1 := by omega
            rw [hnp, pageRange]
          rw [hrange]
          simp [pagesConcat, hcount]

/-- Running the MCP pagination loop when pages page..m succeed with
exactly 500 items and page m+1 fails: the loop stops at page m+1 and
returns ok with the items of pages up to m. -/
theorem fetchAllPagesAux_errStop (extract : JVal → JVal) (pages : Nat → JVal)
    (f : Nat → List JVal) (m : Nat) (hm : 1 ≤ m)
    (hok : ∀ k, 1 ≤ k → k ≤ m → pageOkState pages k = some true)
    (hitems : ∀ k, 1 ≤ k → k ≤ m → mcpPageItems extract pages k = some (f k))
    (hfull : ∀ k, 1 ≤ k → k ≤ m → (f k).length = 500)
    (hfail : pageOkState pages (m + 1) = some false) :
    ∀ (fuel page : Nat) (acc : List JVal), 1 ≤ page → page ≤ m + 1 →
      m + 1 - page < fuel →
      fetchAllPagesAux extract pages page fuel acc =
        (some (successObj (acc ++ pagesConcat f (pageRange page (m + 1 - page))) m),
         m + 2 - page) := by
  intro fuel
  induction fuel with
  | zero => intro page acc h1 h2 h3; omega
  | succ fuel ih =>
      intro page acc h1 h2 h3
      rcases eq_or_lt_of_le h2 with heq | hlt
      · subst heq
        rcases Option.map_eq_some'.mp hfail with ⟨okv, hgok, htok⟩
        rw [fetchAllPagesAux]
        have hne : ¬ (m + 1 = 1) := by omega
        simp only [hgok, htok, if_neg hne]
        have hr : m + 1 - (m + 1) = 0 := by omega
        have hc : m + 2 - (m + 1) = 1 := by omega
        rw [hr, hc]
        simp [pageRange, pagesConcat]
      · have hpm : page ≤ m := by omega
        rcases Option.map_eq_some'.mp (hok page h1 hpm) with ⟨okv, hgok, htok⟩
        have hitp := hitems page h1 hpm
        rcases hd : pyGet (pages page) "data" (JVal.arr []) with _ | d
        · simp [mcpPageItems, hd] at hitp
        · simp only [mcpPageItems, hd] at hitp
          rw [fetchAllPagesAux]
          have hf500 := hfull page h1 hpm
          have hfe : f page ≠ [] := by
            intro hc; rw [hc] at hf500; simp at hf500
          have htr : truthy (extract d) = true := (pyIter_truthy hitp).mpr hfe
          have hlen := pyIter_pyLen hitp
          simp only [hgok, htok, hd, htr, hitp, hlen, hf500]
          have hrec := ih (page + 1) (acc ++ f page) (by omega) (by omega) (by omega)
          rw [hrec]
          have hcount : m + 2 - (page + 1) + 1 = m + 2 - page := by omega
          have hrange : pageRange page (m + 1 - page)
              = page :: pageRange (page + 1) (m + 1 - (page + 1)) := by
            have hnp : m + 1 - page = (m + 1 - (page + 1)) + 1 := by omega
            rw [hnp, pageRange]
          rw [hrange]
          simp only [pagesConcat, hcount]
          simp [List.append_assoc]

/-- When page 1 itself fails, fetch_all_pages returns that page's tool
result unchanged, after a single page fetch. -/
theorem fetchAllPagesWith_firstFail (extract : JVal → JVal)
    (pages : Nat → JVal) (hfail : pageOkState pages 1 = some false) :
    fetchAllPagesWith extract pages = (some (pages 1), 1) := by
  rcases Option.map_eq_some'.mp hfail with ⟨okv, hgok, htok⟩
  have h1000 : (1000 : Nat) = 999 + 1 := by norm_num
  rw [fetchAllPagesWith, h1000, fetchAllPagesAux]
  simp [hgok, htok]

/-- An oracle whose every page is a successful tool result carrying
exactly 500 items. -/
def fullPage : JVal :=
  JVal.obj [("ok", JVal.bool true),
            ("data", JVal.arr (List.replicate 500 (JVal.num 1)))]

/-- The constant full-page oracle. -/
def fullPages : Nat → JVal := fun _ => fullPage

theorem fullPage_items_length : (List.replicate 500 (JVal.num 1)).length = 500 := by
  rw [List.length_replicate]

set_option maxRecDepth 8000 in
/-- Against the constant full-page oracle the loop burns all its fuel,
accumulating 500 items per page. -/
theorem fetchAllPagesAux_fullPages :
    ∀ (fuel page : Nat) (acc : List JVal),
      fetchAllPagesAux extractItemsFull fullPages page fuel acc =
        (some (successObj (acc ++ List.replicate (500 * fuel) (JVal.num 1))
                          (page + fuel - 1)),
         fuel) := by
  intro fuel
  induction fuel with
  | zero =>
      intro page acc
      simp [fetchAllPagesAux]
  | succ fuel ih =>
      intro page acc
      have hgok : pyGet (fullPages page) "ok" JVal.null = some (JVal.bool true) := rfl
      have hgd : pyGet (fullPages page) "data" (JVal.arr [])
          = some (JVal.arr (List.replicate 500 (JVal.num 1))) := rfl
      have htr : truthy (extractItemsFull (JVal.arr (List.replicate 500 (JVal.num 1))))
          = true := rfl
      have hit : pyIter (extractItemsFull (JVal.arr (List.replicate 500 (JVal.num 1))))
          = some (List.replicate 500 (JVal.num 1)) := rfl
      have hstep : fetchAllPagesAux extractItemsFull fullPages page (fuel + 1) acc
          = (match fetchAllPagesAux extractItemsFull fullPages (page + 1) fuel
               (acc ++ List.replicate 500 (JVal.num 1)) with
             | (r, n) => (r, n + 1)) := rfl
      rw [hstep, ih (page + 1) (acc ++ List.replicate 500 (JVal.num 1))]
      have hrepl : List.replicate (500 * (fuel + 1)) (JVal.num 1)
          = List.replicate 500 (JVal.num 1) ++ List.replicate (500 * fuel) (JVal.num 1) := by
        rw [← List.replicate_add]
        congr 1
        ring
      have hpg : page + 1 + fuel - 1 = page + (fuel + 1) - 1 := by omega
      rw [hrepl, ← hpg, List.append_assoc]

/-- Running paged_get when pages page..n-1 yield exactly 500 items, page
n yields an empty or short items list, and the fuel does not run out
first: the generator finishes having yielded the pages' items in
order. -/
theorem pagedGetAux_run (pages : Nat → Option JVal) (f : Nat → List JVal) (n : Nat)
    (hitems : ∀ k, 1 ≤ k → k ≤ n → httpPageItems pages k = some (f k))
    (hfull : ∀ k, 1 ≤ k → k < n → (f k).length = 500)
    (hlast : (f n).length < 500) :
    ∀ (fuel page : Nat) (acc : List JVal), 1 ≤ page → page ≤ n → n - page < fuel →
      pagedGetAux pages page fuel acc =
        GenOut.done (acc ++ pagesConcat f (pageRange page (n - page + 1))) := by
  intro fuel
  induction fuel with
  | zero => intro page acc h1 h2 h3; omega
  | succ fuel ih =>
      intro page acc h1 h2 h3
      have hitp := hitems page h1 h2
      rcases hb : pages page with _ | body
      · simp [httpPageItems, hb] at hitp
      · rcases hi : httpItems body with _ | items
        · simp [httpPageItems, hb, hi] at hitp
        · simp only [httpPageItems, hb, hi] at hitp
          rw [pagedGetAux]
          rcases eq_or_lt_of_le h2 with heq | hlt
          · subst heq
            by_cases hfe : f page = []
            · have htr : truthy items = false := by
                rcases Bool.eq_false_or_eq_true (truthy items) with hh | hh
                · exact absurd ((pyIter_truthy hitp).mp hh) (by simp [hfe])
                · exact hh
              simp only [hb, hi, htr]
              have hr : page - page + 1 = 1 := by omega
              rw [hr]
              simp [pageRange, pagesConcat, hfe]
            · have htr : truthy items = true := (pyIter_truthy hitp).mpr hfe
              have hlen := pyIter_pyLen hitp
              simp only [hb, hi, htr, hitp, hlen]
              have hr : page - page + 1 = 1 := by omega
              rw [hr]
              simp [pageRange, pagesConcat, hlast]
          · have hf500 := hfull page h1 hlt
            have hfe : f page ≠ [] := by
              intro hc; rw [hc] at hf500; simp at hf500
            have htr : truthy items = true := (pyIter_truthy hitp).mpr hfe
            have hlen := pyIter_pyLen hitp
            simp only [hb, hi, htr, hitp, hlen, hf500]
            have hrec := ih (page + 1) (acc ++ f page) (by omega) (by omega) (by omega)
            rw [hrec]
            have hrange : pageRange page (n - page + 1)
                = page :: pageRange (page + 1) (n - (page + 1) + 1) := by
              have hnp : n - page + 1 = (n - (page + 1) + 1) + 1 := by omega
              rw [hnp, pageRange]
            rw [hrange]
            simp [pagesConcat]

/-- Every record the MCP write loop emits carries the three ingestion
metadata fields, and the final count is the starting count plus the
number of lines written (one line per input item). -/
theorem mcpWriteLoop_spec (resource : String) (clock : Nat → String) :
    ∀ (data : List JVal) (i count : Nat) (lines : List JVal) (c : Nat),
      mcpWriteLoop resource clock data i count = some (lines, c) →
      c = count + lines.length ∧ lines.length = data.length ∧
      ∀ r ∈ lines,
        pyGet r "_source_" JVal.null = some (JVal.str "payday-mcp") ∧
        pyGet r "_resource_" JVal.null = some (JVal.str resource) ∧
        ∃ ts, pyGet r "_ingested_at_utc" JVal.null = some (JVal.str ts) := by
  intro data
  induction data with
  | nil =>
      intro i count lines c h
      simp only [mcpWriteLoop, Option.some.injEq, Prod.mk.injEq] at h
      obtain ⟨hl, hc⟩ := h
      subst hl
      subst hc
      exact ⟨by simp, by simp, by simp⟩
  | cons item rest ih =>
      intro i count lines c h
      cases item with
      | null => simp [mcpWriteLoop, pySetItem] at h
      | bool b => simp [mcpWriteLoop, pySetItem] at h
      | num n => simp [mcpWriteLoop, pySetItem] at h
      | str s => simp [mcpWriteLoop, pySetItem] at h
      | arr xs => simp [mcpWriteLoop, pySetItem] at h
      | obj kvs0 =>
          simp only [mcpWriteLoop, pySetItem] at h
          rcases hr : mcpWriteLoop resource clock rest (i + 1) (count + 1) with _ | tc
          · rw [hr] at h
            simp at h
          · obtain ⟨tail, c2⟩ := tc
            rw [hr] at h
            simp only [Option.some.injEq, Prod.mk.injEq] at h
            obtain ⟨hl, hc⟩ := h
            obtain ⟨h1, h2, h3⟩ := ih (i + 1) (count + 1) tail c2 hr
            subst hl
            subst hc
            refine ⟨by simp [h2]; omega, by simp [h2], ?_⟩
            intro r hmem
            rcases List.mem_cons.mp hmem with hhd | htl
            · subst hhd
              refine ⟨?_, ?_, ?_⟩
              · rw [pyGet, Option.some.injEq]
                rw [lookup_setKey_ne _ _ _ _ (by decide),
                    lookup_setKey_self]
                rfl
              · rw [pyGet, Option.some.injEq]
                rw [lookup_setKey_self]
                rfl
              · refine ⟨clock i, ?_⟩
                rw [pyGet, Option.some.injEq]
                rw [lookup_setKey_ne _ _ _ _ (by decide),
                    lookup_setKey_ne _ _ _ _ (by decide),
                    lookup_setKey_self]
                rfl
            · exact h3 r htl

/-!
## Claim theorems
-/

/-- C1: the Silver build applies the quality gates to the raw records:
after a build the tables silver.qc_orphan_txn_accounts and
silver.qc_missing_fields exist and contain exactly the transactions of
the (deduplicated, typed) transactions table that reference no known
account, respectively miss a critical field; the typed tables are
deduplicated (no two rows share a key). -/
theorem silver_quality_gates (rawAccounts : List RawAccount) (rawTxns : List RawTxn) :
    (∀ t, t ∈ (buildSilver rawAccounts rawTxns).qc_orphan_txn_accounts ↔
        t ∈ (buildSilver rawAccounts rawTxns).transactions ∧
        isOrphan (buildSilver rawAccounts rawTxns).accounts t = true)
    ∧ (∀ t, t ∈ (buildSilver rawAccounts rawTxns).qc_missing_fields ↔
        t ∈ (buildSilver rawAccounts rawTxns).transactions ∧
        missingCritical t = true)
    ∧ ((buildSilver rawAccounts rawTxns).transactions.map RawTxn.txnId).Nodup
    ∧ ((buildSilver rawAccounts rawTxns).accounts.map RawAccount.code).Nodup := by
  refine ⟨?_, ?_, ?_, ?_⟩
  · intro t
    simp [buildSilver, List.mem_filter]
  · intro t
    simp [buildSilver, List.mem_filter]
  · exact dedupByAux_nodup RawTxn.txnId rawTxns []
  · exact dedupByAux_nodup RawAccount.code rawAccounts []

/-- C4: the orchestrator runs Silver then Gold strictly sequentially:
Gold is started exactly when Silver's command returned 0, the run stops
at the first failing step, and the process exits 0 exactly when both
steps returned 0 (else 1). -/
theorem build_pipeline_sequential (exec : String → Int) :
    buildPipelineRun exec =
      (if exec "python scripts/silver_build.ps1" == 0 then
         if exec "python scripts/gold_build.ps1" == 0 then (["Silver", "Gold"], true)
         else (["Silver", "Gold"], false)
       else (["Silver"], false))
    ∧ buildPipelineExit exec =
      (if (exec "python scripts/silver_build.ps1" == 0
           && exec "python scripts/gold_build.ps1" == 0) then 0 else 1) := by
  constructor
  · rw [buildPipelineRun, pipelineSteps]
    by_cases hs : exec "python scripts/silver_build.ps1" == 0
    · by_cases hg : exec "python scripts/gold_build.ps1" == 0
      · simp [runStepsAux, hs, hg]
      · simp [runStepsAux, hs, hg]
    · simp [runStepsAux, hs]
  · rw [buildPipelineExit, buildPipelineRun, pipelineSteps]
    by_cases hs : exec "python scripts/silver_build.ps1" == 0
    · by_cases hg : exec "python scripts/gold_build.ps1" == 0
      · simp [runStepsAux, hs, hg]
      · simp [runStepsAux, hs, hg]
    · simp [runStepsAux, hs]

/-- C5: the export utility builds SELECT * FROM view, appends the WHERE
clause exactly when --where is nonempty, appends --order or the default
ORDER BY 1 DESC, always appends LIMIT --limit (default arguments give
ORDER BY 1 DESC LIMIT 2000); a successful query is written as the array
of column-zipped row objects to the --out destination with exit 0, and
any failure yields exit 1 with an error on stderr and nothing written. -/
theorem export_json_spec (a : ExportArgs) (db : String → DbResult) :
    buildSql a = "SELECT * FROM " ++ a.view
        ++ (if a.whereClause = "" then "" else " WHERE " ++ a.whereClause)
        ++ (if a.order = "" then " ORDER BY 1 DESC" else " ORDER BY " ++ a.order)
        ++ " LIMIT " ++ toString a.limit
    ∧ buildSql (defaultExportArgs a.view)
        = "SELECT * FROM " ++ a.view ++ " ORDER BY 1 DESC LIMIT 2000"
    ∧ exportMain a db =
        (match db (buildSql a) with
         | DbResult.err e => ⟨1, none, some ("[ERROR] Export failed: " ++ e)⟩
         | DbResult.ok cols rows =>
             ⟨0, some (a.outPath, rows.map (fun row => cols.zip row)), none⟩) := by
  refine ⟨?_, ?_, ?_⟩
  · rw [buildSql]
    by_cases hw : a.whereClause = ""
    · by_cases ho : a.order = ""
      · simp [hw, ho, String.append_assoc]
      · simp [hw, ho, String.append_assoc]
    · by_cases ho : a.order = ""
      · simp [hw, ho, String.append_assoc]
      · simp [hw, ho, String.append_assoc]
  · show ((("SELECT * FROM " ++ a.view) ++ " ORDER BY 1 DESC") ++ " LIMIT ")
        ++ toString (2000 : Int)
      = "SELECT * FROM " ++ a.view ++ " ORDER BY 1 DESC LIMIT 2000"
    rw [String.append_assoc, String.append_assoc]
    rfl
  · rw [exportMain]
    rcases hdb : db (buildSql a) with ⟨cols, rows⟩ | e
    · rcases rows with _ | ⟨row, rows⟩ <;> simp
    · simp

/-- C6: both fetch drivers attempt every configured resource exactly
once, in order, whatever each fetch does (succeed, return nothing or
raise): a raised exception is caught and turned into an error record
(MCP driver) or skipped (HTTP driver) and never stops the loop, and no
resource is retried. -/
theorem fetch_driver_error_isolation
    (behM behH : String → Except String (Option JVal)) (rs : List String) :
    mcpMainLoop behM rs = (rs.filterMap (mcpResultView behM), rs)
    ∧ httpMainLoop behH rs = (rs.filterMap (httpResultView behH), rs) := by
  constructor
  · induction rs with
    | nil => rfl
    | cons r rest ih =>
        rw [mcpMainLoop, ih, List.filterMap_cons]
        rcases hb : behM r with e | v
        · simp [mcpResultView, hb]
        · rcases v with _ | v <;> simp [mcpResultView, hb]
  · induction rs with
    | nil => rfl
    | cons r rest ih =>
        rw [httpMainLoop, ih, List.filterMap_cons]
        rcases hb : behH r with e | v
        · simp [httpResultView, hb]
        · simp [httpResultView, hb]

/-- C7: the orchestrator's Bronze check does not find the snapshots the
fetch scripts write: a fetch of one record for resource "accounts"
produces exactly the file accounts/snapshot_<TS>.jsonl below
data/bronze/payday, the file's name does end in ".jsonl", yet the
single-level glob "*.jsonl" of build_pipeline.py returns nothing on it
(it only matches names directly inside data/bronze/payday, as the last
conjunct shows). -/
theorem bronze_check_misses_snapshots :
    (mcpFetchWrites "accounts" "20250101_000000" (fun _ => "T") [JVal.obj []]).map
        (fun fs => (fs.map relUnderPayday, globJsonl (fs.map relUnderPayday)))
      = some ([bronzeSnapshotRelPath "accounts" "20250101_000000"], [])
    ∧ strEndsWith "snapshot_20250101_000000.jsonl" ".jsonl" = true
    ∧ globJsonl [["snapshot_20250101_000000.jsonl"]]
        = [["snapshot_20250101_000000.jsonl"]] := by
  refine ⟨rfl, by decide, by decide⟩

/-- C10: a single paginated MCP resource fetch performs at most 1000
page fetches (the max_pages safety limit), for both the full and the
test fetcher and every page oracle. -/
theorem mcp_pagination_page_cap (pages : Nat → JVal) :
    (fetchAllPagesFull pages).2 ≤ 1000 ∧ (fetchAllPagesTest pages).2 ≤ 1000 :=
  ⟨fetchAllPagesAux_count extractItemsFull pages 1000 1 [],
   fetchAllPagesAux_count extractItemsTest pages 1000 1 []⟩

/-- C2 as stated, applied to the MCP fetcher (the claim quantifies over
the Bronze fetch scripts, so one fetcher violating it refutes it): every
successful fetch of at least one record writes both a JSONL and a
Parquet snapshot. -/
def mcpWritesBothSnapshots : Prop :=
  ∀ (resource ts : String) (clock : Nat → String) (data : List JVal)
    (files : List BronzeFile),
    resource ∈ mcpResources → data ≠ [] →
    mcpFetchWrites resource ts clock data = some files →
    (∃ f ∈ files, f.name = "snapshot_" ++ ts ++ ".jsonl") ∧
    (∃ f ∈ files, f.name = "snapshot_" ++ ts ++ ".parquet")

/-- C2 fails on the code: fetching one "accounts" record through the
MCP fetcher writes only the JSONL snapshot and no Parquet file. -/
theorem bronze_parquet_counterexample : ¬ mcpWritesBothSnapshots := by
  intro h
  have hw : mcpFetchWrites "accounts" "20250101_000000" (fun _ => "T")
      [JVal.obj []]
      = some [⟨bronzeResourceDir "accounts", "snapshot_20250101_000000.jsonl",
               [JVal.obj [("_ingested_at_utc", JVal.str "T"),
                          ("_source_", JVal.str "payday-mcp"),
                          ("_resource_", JVal.str "accounts")]]⟩] := rfl
  have hres : "accounts" ∈ mcpResources := by decide
  obtain ⟨-, f, hf, hname⟩ :=
    h "accounts" "20250101_000000" (fun _ => "T") [JVal.obj []] _ hres
      (by simp) hw
  rw [List.mem_singleton] at hf
  rw [hf] at hname
  exact absurd hname (by decide)

/-- C2 amended: only the HTTP fetcher bronze_fetch.py writes both
snapshot files (JSONL then Parquet derived from it, whenever at least
one record was written); the MCP fetchers write only the JSONL
snapshot, every file they produce being
data/bronze/payday/<resource>/snapshot_<TS>.jsonl. -/
theorem bronze_snapshot_files_amended :
    (∀ (resource ts : String) (clock : Nat → String) (items lines : List JVal)
       (count : Nat),
       resource ∈ httpRoutes →
       httpWriteLoop clock items 0 0 = some (lines, count) → 0 < count →
       httpFetchWrites resource ts clock items =
         some [⟨bronzeResourceDir resource, "snapshot_" ++ ts ++ ".jsonl", lines⟩,
               ⟨bronzeResourceDir resource, "snapshot_" ++ ts ++ ".parquet", lines⟩])
    ∧ (∀ (resource ts : String) (clock : Nat → String) (data : List JVal)
        (files : List BronzeFile),
        mcpFetchWrites resource ts clock data = some files →
        ∀ f ∈ files, f.name = "snapshot_" ++ ts ++ ".jsonl"
          ∧ f.dir = bronzeResourceDir resource) := by
  constructor
  · intro resource ts clock items lines count hres hloop hcount
    rw [httpFetchWrites, if_pos hres, hloop]
    have hne : ¬ (count = 0) := by omega
    simp [hne]
  · intro resource ts clock data files hw f hf
    rw [mcpFetchWrites] at hw
    by_cases hres : resource ∈ mcpResources
    · rw [if_pos hres] at hw
      by_cases hemp : data.isEmpty
      · rw [if_pos hemp] at hw
        obtain rfl : ([] : List BronzeFile) = files := Option.some.inj hw
        simp at hf
      · rw [if_neg hemp] at hw
        rcases hl : mcpWriteLoop resource clock data 0 0 with _ | lc
        · rw [hl] at hw
          simp at hw
        · obtain ⟨lines, c⟩ := lc
          rw [hl] at hw
          obtain rfl := Option.some.inj hw
          rw [List.mem_singleton] at hf
          rw [hf]
          exact ⟨rfl, rfl⟩
    · rw [if_neg hres] at hw
      obtain rfl : ([] : List BronzeFile) = files := Option.some.inj hw
      simp at hf

/-- Witness for the amended C2 at concrete inputs: one "accounts" record
makes the HTTP fetcher write both snapshot files, and the MCP fetcher's
only file is the JSONL snapshot. -/
theorem bronze_snapshot_files_amended_witness :
    httpFetchWrites "accounts" "20250101_000000" (fun _ => "C") [JVal.obj []] =
      some [⟨bronzeResourceDir "accounts",
             "snapshot_" ++ "20250101_000000" ++ ".jsonl",
             [JVal.obj [("_ingested_at_utc", JVal.str "C"),
                        ("_source_", JVal.str "payday")]]⟩,
            ⟨bronzeResourceDir "accounts",
             "snapshot_" ++ "20250101_000000" ++ ".parquet",
             [JVal.obj [("_ingested_at_utc", JVal.str "C"),
                        ("_source_", JVal.str "payday")]]⟩]
    ∧ ∀ f ∈ [(⟨bronzeResourceDir "accounts", "snapshot_" ++ "20250101_000000" ++ ".jsonl",
              [JVal.obj [("_ingested_at_utc", JVal.str "T"),
                         ("_source_", JVal.str "payday-mcp"),
                         ("_resource_", JVal.str "accounts")]]⟩ : BronzeFile)],
        f.name = "snapshot_" ++ "20250101_000000" ++ ".jsonl"
          ∧ f.dir = bronzeResourceDir "accounts" :=
  ⟨bronze_snapshot_files_amended.1 "accounts" "20250101_000000" (fun _ => "C")
      [JVal.obj []] _ 1 (by decide) rfl (by omega),
   bronze_snapshot_files_amended.2 "accounts" "20250101_000000" (fun _ => "T")
      [JVal.obj []] _ rfl⟩

/-- C3 as stated, applied to bronze_fetch_full.py's loop (the claim
quantifies over every fetcher's pagination loop, so one loop violating
it refutes it): whenever the loop returns a success result after n page
fetches, the n-th (last) page returned no items or fewer than the page
size 500. -/
def mcpStopsOnlyOnShortPage : Prop :=
  ∀ (pages : Nat → JVal) (ds : List JVal) (t n : Nat),
    fetchAllPagesFull pages = (some (successObj ds t), n) →
    ∃ xs, mcpPageItems extractItemsFull pages n = some xs ∧
      (xs = [] ∨ xs.length < 500)

/-- C3 fails on the code: against an oracle whose every page carries
exactly 500 items the loop stops after page 1000 (the max_pages safety
limit) with a success result, although page 1000 was neither empty nor
short. -/
theorem pagination_stop_counterexample : ¬ mcpStopsOnlyOnShortPage := by
  intro h
  have heq : fetchAllPagesFull fullPages =
      (some (successObj (List.replicate (500 * 1000) (JVal.num 1)) 1000), 1000) := by
    rw [fetchAllPagesFull, fetchAllPagesWith, fetchAllPagesAux_fullPages 1000 1 []]
    norm_num
  obtain ⟨xs, hxs, hshort⟩ := h fullPages _ 1000 1000 heq
  have hxs2 : mcpPageItems extractItemsFull fullPages 1000
      = some (List.replicate 500 (JVal.num 1)) := rfl
  rw [hxs2, Option.some.injEq] at hxs
  subst hxs
  rcases hshort with he | hlt
  · have := congrArg List.length he
    rw [List.length_replicate] at this
    simp at this
  · rw [List.length_replicate] at hlt
    omega

/-- C3 amended: every fetcher's pagination loop requests pages from 1
with page size 500 and appends the items in order; when no page fails
it stops exactly when a page returns no items or fewer than 500 (for
the MCP loops: provided that happens within the 1000-page safety limit,
which also caps the number of page fetches of any run), returning the
concatenation of all pages fetched so far. -/
theorem pagination_loop_amended :
    (∀ (extract : JVal → JVal) (pages : Nat → JVal) (f : Nat → List JVal) (n : Nat),
       1 ≤ n → n ≤ 1000 →
       (∀ k, 1 ≤ k → k ≤ n → pageOkState pages k = some true) →
       (∀ k, 1 ≤ k → k ≤ n → mcpPageItems extract pages k = some (f k)) →
       (∀ k, 1 ≤ k → k < n → (f k).length = 500) →
       (f n).length < 500 →
       fetchAllPagesWith extract pages =
         (some (successObj (pagesConcat f (pageRange 1 n)) (n - 1)), n))
    ∧ (∀ (pages : Nat → Option JVal) (f : Nat → List JVal) (n fuel : Nat),
       1 ≤ n → n ≤ fuel →
       (∀ k, 1 ≤ k → k ≤ n → httpPageItems pages k = some (f k)) →
       (∀ k, 1 ≤ k → k < n → (f k).length = 500) →
       (f n).length < 500 →
       pagedGet pages fuel = GenOut.done (pagesConcat f (pageRange 1 n)))
    ∧ (∀ (extract : JVal → JVal) (pages : Nat → JVal),
       (fetchAllPagesWith extract pages).2 ≤ 1000) := by
  refine ⟨?_, ?_, ?_⟩
  · intro extract pages f n h1 h2 hok hitems hfull hlast
    have hrun := fetchAllPagesAux_run extract pages f n hok hitems hfull hlast
      1000 1 [] (by omega) h1 (by omega)
    rw [fetchAllPagesWith, hrun]
    have hn : n - 1 + 1 = n := by omega
    rw [hn]
    simp
  · intro pages f n fuel h1 h2 hitems hfull hlast
    have hrun := pagedGetAux_run pages f n hitems hfull hlast
      fuel 1 [] (by omega) h1 (by omega)
    rw [pagedGet, hrun]
    have hn : n - 1 + 1 = n := by omega
    rw [hn]
    simp
  · intro extract pages
    exact fetchAllPagesAux_count extract pages 1000 1 []

/-- Witness for the amended C3 at concrete inputs: a single page of one
item stops both loops after page 1 with exactly that item, and the page
cap holds for the full-page oracle. -/
theorem pagination_loop_amended_witness :
    fetchAllPagesWith extractItemsTest
        (fun _ => JVal.obj [("ok", JVal.bool true), ("data", JVal.arr [JVal.num 7])]) =
      (some (successObj (pagesConcat (fun _ => [JVal.num 7]) (pageRange 1 1)) 0), 1)
    ∧ pagedGet (fun _ => some (JVal.arr [JVal.num 7])) 5 =
      GenOut.done (pagesConcat (fun _ => [JVal.num 7]) (pageRange 1 1))
    ∧ (fetchAllPagesWith extractItemsFull fullPages).2 ≤ 1000 := by
  refine ⟨?_, ?_, ?_⟩
  · refine pagination_loop_amended.1 extractItemsTest _ (fun _ => [JVal.num 7]) 1
      (by omega) (by omega) ?_ ?_ ?_ (by simp)
    · intro k hk1 hk2
      have hk : k = 1 := by omega
      subst hk
      rfl
    · intro k hk1 hk2
      have hk : k = 1 := by omega
      subst hk
      rfl
    · intro k hk1 hk2
      omega
  · refine pagination_loop_amended.2.1 _ (fun _ => [JVal.num 7]) 1 5
      (by omega) (by omega) ?_ ?_ (by simp)
    · intro k hk1 hk2
      have hk : k = 1 := by omega
      subst hk
      rfl
    · intro k hk1 hk2
      omega
  · exact pagination_loop_amended.2.2 extractItemsFull fullPages

/-- C8: every record the MCP fetchers write to a Bronze JSONL snapshot
carries, besides its API fields, _ingested_at_utc (the ingestion
timestamp), _source_ = "payday-mcp" and _resource_ = the resource name,
and the reported count equals the number of lines written (which is the
number of fetched records). -/
theorem mcp_jsonl_ingestion_metadata (resource : String) (clock : Nat → String)
    (data lines : List JVal) (c : Nat)
    (h : mcpWriteLoop resource clock data 0 0 = some (lines, c)) :
    c = lines.length ∧ lines.length = data.length ∧
    ∀ r ∈ lines,
      pyGet r "_source_" JVal.null = some (JVal.str "payday-mcp") ∧
      pyGet r "_resource_" JVal.null = some (JVal.str resource) ∧
      ∃ ts, pyGet r "_ingested_at_utc" JVal.null = some (JVal.str ts) := by
  obtain ⟨h1, h2, h3⟩ := mcpWriteLoop_spec resource clock data 0 0 lines c h
  exact ⟨by omega, h2, h3⟩

/-- Witness for C8 at a concrete input: writing one "accounts" record
reports count 1 and stamps the three metadata fields. -/
theorem mcp_jsonl_ingestion_metadata_witness :
    (1 : Nat) = ([JVal.obj [("a", JVal.num 1),
                            ("_ingested_at_utc", JVal.str "TS0"),
                            ("_source_", JVal.str "payday-mcp"),
                            ("_resource_", JVal.str "accounts")]] : List JVal).length
    ∧ ([JVal.obj [("a", JVal.num 1),
                  ("_ingested_at_utc", JVal.str "TS0"),
                  ("_source_", JVal.str "payday-mcp"),
                  ("_resource_", JVal.str "accounts")]] : List JVal).length
        = ([JVal.obj [("a", JVal.num 1)]] : List JVal).length
    ∧ ∀ r ∈ ([JVal.obj [("a", JVal.num 1),
                        ("_ingested_at_utc", JVal.str "TS0"),
                        ("_source_", JVal.str "payday-mcp"),
                        ("_resource_", JVal.str "accounts")]] : List JVal),
        pyGet r "_source_" JVal.null = some (JVal.str "payday-mcp") ∧
        pyGet r "_resource_" JVal.null = some (JVal.str "accounts") ∧
        ∃ ts, pyGet r "_ingested_at_utc" JVal.null = some (JVal.str ts) :=
  mcp_jsonl_ingestion_metadata "accounts" (fun _ => "TS0")
    [JVal.obj [("a", JVal.num 1)]] _ 1 rfl

/-- A page result whose "ok" field is falsy. -/
def failPage : JVal :=
  JVal.obj [("ok", JVal.bool false), ("error", JVal.str "boom")]

/-- An oracle whose first page already fails. -/
def pagesFirstFail : Nat → JVal := fun _ => failPage

/-- A successful page of exactly 500 items. -/
def okPage500 : JVal :=
  JVal.obj [("ok", JVal.bool true),
            ("data", JVal.arr (List.replicate 500 (JVal.num 2)))]

/-- An oracle whose page 1 succeeds full and page 2 fails. -/
def pagesSecondFail : Nat → JVal :=
  fun k => if k = 1 then okPage500 else failPage

/-- C9: fetch_all_pages handles page failures asymmetrically: a failed
first page makes it return that page's error result unchanged, while a
failure at page m+1 after m full pages stops the pagination and returns
ok with the partially collected items of pages 1..m. -/
theorem mcp_page_failure_asymmetry :
    (∀ (extract : JVal → JVal) (pages : Nat → JVal),
       pageOkState pages 1 = some false →
       fetchAllPagesWith extract pages = (some (pages 1), 1))
    ∧ (∀ (extract : JVal → JVal) (pages : Nat → JVal) (f : Nat → List JVal)
        (m : Nat),
       1 ≤ m → m ≤ 999 →
       (∀ k, 1 ≤ k → k ≤ m → pageOkState pages k = some true) →
       (∀ k, 1 ≤ k → k ≤ m → mcpPageItems extract pages k = some (f k)) →
       (∀ k, 1 ≤ k → k ≤ m → (f k).length = 500) →
       pageOkState pages (m + 1) = some false →
       fetchAllPagesWith extract pages =
         (some (successObj (pagesConcat f (pageRange 1 m)) m), m + 1)) := by
  constructor
  · intro extract pages hfail
    exact fetchAllPagesWith_firstFail extract pages hfail
  · intro extract pages f m h1 h2 hok hitems hfull hfail
    have hrun := fetchAllPagesAux_errStop extract pages f m h1 hok hitems hfull
      hfail 1000 1 [] (by omega) (by omega) (by omega)
    rw [fetchAllPagesWith, hrun]
    have ha : m + 1 - 1 = m := by omega
    have hb : m + 2 - 1 = m + 1 := by omega
    rw [ha, hb]
    simp

/-- Witness for C9 at concrete oracles: a failing first page is returned
unchanged, and a failure at page 2 after one full page returns ok with
the 500 items of page 1. -/
theorem mcp_page_failure_asymmetry_witness :
    fetchAllPagesWith extractItemsFull pagesFirstFail = (some (pagesFirstFail 1), 1)
    ∧ fetchAllPagesWith extractItemsFull pagesSecondFail =
        (some (successObj (pagesConcat (fun _ => List.replicate 500 (JVal.num 2))
                            (pageRange 1 1)) 1), 2) := by
  constructor
  · exact mcp_page_failure_asymmetry.1 extractItemsFull pagesFirstFail rfl
  · refine mcp_page_failure_asymmetry.2 extractItemsFull pagesSecondFail
      (fun _ => List.replicate 500 (JVal.num 2)) 1 (by omega) (by omega) ?_ ?_ ?_ rfl
    · intro k hk1 hk2
      have hk : k = 1 := by omega
      subst hk
      rfl
    · intro k hk1 hk2
      have hk : k = 1 := by omega
      subst hk
      rfl
    · intro k hk1 hk2
      rw [List.length_replicate]

end Payday
